import Mathlib

/-!
# Verification of the PyBtcWallet core (armoryengine/PyBtcWallet.py)

A shallow embedding of the wallet-file codec, the atomic safe-update engine,
the consistency check, imported-key deletion, KDF parameter serialization,
external-key import, and the address-chain/pool state machine, together with
theorems settling the specification claims about them.

Bytes are modelled as `Nat` (values kept below 256 by construction where it
matters), byte strings as `List Nat`.  Helper routines that live outside the
provided source file (BinaryPacker/BinaryUnpacker, checksum helpers) are
modelled from the specification text and marked as such in their doc comments.
-/

set_option maxRecDepth 4000
set_option linter.unnecessarySeqFocus false
set_option linter.unreachableTactic false
set_option linter.unusedTactic false

namespace PyBtcWallet

/-! ## Byte-string helpers (BinaryPacker / BinaryUnpacker semantics)

Modelled from the spec, section 4.1: little-endian fixed-width integers,
zero-padded fixed-width chunks. -/

/-- Modelled from the spec: little-endian encoding of `n` into `w` bytes
(BinaryPacker.put for UINT8/UINT16/UINT32/UINT64). -/
def toLE : Nat → Nat → List Nat
  | 0, _ => []
  | w + 1, n => (n % 256) :: toLE w (n / 256)

/-- Modelled from the spec: little-endian decoding of a byte list
(BinaryUnpacker.get for fixed-width unsigned integers). -/
def fromLE : List Nat → Nat
  | [] => 0
  | b :: bs => b + 256 * fromLE bs

/-- Modelled from the spec: a zero-padded fixed-width chunk
(BinaryPacker.put BINARY_CHUNK with an explicit width). -/
def chunkPad (w : Nat) (s : List Nat) : List Nat :=
  s ++ List.replicate (w - s.length) 0

/-- Overwrite of the bytes of `f` starting at position `loc` with `b`
(python file `seek(loc)` followed by `write(b)`; a seek past the end
zero-fills the gap). -/
def writeAt (f : List Nat) (loc : Nat) (b : List Nat) : List Nat :=
  (f.take loc ++ List.replicate (loc - f.length) 0) ++ b ++ f.drop (loc + b.length)

/-! ## Wallet entry-stream constants (PyBtcWallet.py lines 24-31) -/

/-- Source line 24: `WLT_UPDATE_ADD = 0`. -/
def WLT_UPDATE_ADD : Nat := 0
/-- Source line 25: `WLT_UPDATE_MODIFY = 1`. -/
def WLT_UPDATE_MODIFY : Nat := 1
/-- Source line 27: `WLT_DATATYPE_KEYDATA = 0`. -/
def WLT_DATATYPE_KEYDATA : Nat := 0
/-- Source line 28: `WLT_DATATYPE_ADDRCOMMENT = 1`. -/
def WLT_DATATYPE_ADDRCOMMENT : Nat := 1
/-- Source line 29: `WLT_DATATYPE_TXCOMMENT = 2`. -/
def WLT_DATATYPE_TXCOMMENT : Nat := 2
/-- Source line 30: `WLT_DATATYPE_OPEVAL = 3`. -/
def WLT_DATATYPE_OPEVAL : Nat := 3
/-- Source line 31: `WLT_DATATYPE_DELETED = 4`. -/
def WLT_DATATYPE_DELETED : Nat := 4

/-! ## Entry-stream records and the read loop (`unpackNextEntry`, lines 1877-1899) -/

/-- One parsed record of the wallet entry stream, as produced by
`unpackNextEntry` and consumed by the `readWalletFile` loop. -/
inductive WEntry where
  | keyData (id160 : List Nat) (ser : List Nat)
  | addrComment (id160 : List Nat) (s : List Nat)
  | txComment (txHash : List Nat) (s : List Nat)
  | deleted (len : Nat)
  | unknown (dtype : Nat)
  deriving Repr, DecidableEq

/-- The entry-stream read loop of `readWalletFile` (lines 1927-1960) driven by
`unpackNextEntry` (lines 1877-1899): type byte 0 = key data
(20-byte hash + fixed `aSize`-byte address record), 1 = address comment
(20-byte hash + u16 length + bytes), 2 = tx comment (32-byte hash + u16 length
+ bytes), 3 = OP_EVAL (raises `NotImplementedError`, modelled as `none`),
4 = deleted (u16 length, cursor advanced by that length), any other type byte
is returned with empty hash/data — it consumes exactly one byte and the read
loop silently continues.  `none` models an unpacking error (a raise). -/
def parseEntries (aSize : Nat) : List Nat → Option (List WEntry)
  | [] => some []
  | t :: rest =>
      if t = WLT_DATATYPE_KEYDATA then
        if 20 + aSize ≤ rest.length then
          (parseEntries aSize (rest.drop (20 + aSize))).map
            (fun es => WEntry.keyData (rest.take 20) ((rest.drop 20).take aSize) :: es)
        else none
      else if t = WLT_DATATYPE_ADDRCOMMENT then
        if 22 ≤ rest.length then
          let len := fromLE ((rest.drop 20).take 2)
          if 22 + len ≤ rest.length then
            (parseEntries aSize (rest.drop (22 + len))).map
              (fun es => WEntry.addrComment (rest.take 20) ((rest.drop 22).take len) :: es)
          else none
        else none
      else if t = WLT_DATATYPE_TXCOMMENT then
        if 34 ≤ rest.length then
          let len := fromLE ((rest.drop 32).take 2)
          if 34 + len ≤ rest.length then
            (parseEntries aSize (rest.drop (34 + len))).map
              (fun es => WEntry.txComment (rest.take 32) ((rest.drop 34).take len) :: es)
          else none
        else none
      else if t = WLT_DATATYPE_OPEVAL then
        none
      else if t = WLT_DATATYPE_DELETED then
        if 2 ≤ rest.length then
          (parseEntries aSize (rest.drop (2 + fromLE (rest.take 2)))).map
            (fun es => WEntry.deleted (fromLE (rest.take 2)) :: es)
        else none
      else
        (parseEntries aSize rest).map (fun es => WEntry.unknown t :: es)
  termination_by l => l.length
  decreasing_by
    all_goals simp [List.length_drop]
    all_goals omega

/-! ## Filesystem model for the atomic update engine

The wallet directory state: the primary file `P` (the claims concern states
where it exists, matching the `os.path.exists` guards at lines 2037 and 2183
that raise `FileExistsError` otherwise), the optional backup `B`, and the two
zero-byte sentinel files `MUF = P + "_update_unsuccessful"` and
`BUF = P + "_backup_unsuccessful"` whose existence is their only signal. -/

structure WFS where
  primary : List Nat
  backup : Option (List Nat)
  muf : Bool
  buf : Bool
  deriving Repr, DecidableEq

/-- One observable filesystem effect of the update engine, in the order the
code performs them. -/
inductive FsEffect where
  | touchMUF
  | touchBUF
  | removeMUF
  | removeBUF
  | copyPtoB
  | copyBtoP
  | appendP (bytes : List Nat)
  | appendB (bytes : List Nat)
  | seekWriteP (loc : Nat) (bytes : List Nat)
  | seekWriteB (loc : Nat) (bytes : List Nat)
  deriving Repr, DecidableEq

/-- Model of `doWalletFileConsistencyCheck` (lines 2156-2214), on a state whose primary
exists.  First, if the backup is absent it is created as a copy of the primary
under a `BUF` fence (touch `BUF`, copy `P` to `B`, remove `BUF`; lines
2190-2195) — this runs regardless of the `MUF` sentinel.  Then, on the
resulting state: if both sentinels exist, copy `P` to `B` and remove both
(lines 2197-2202); else if `MUF` exists, copy `B` to `P` and remove `MUF`
(lines 2203-2207); else if `BUF` exists, copy `P` to `B` and remove `BUF`
(lines 2208-2211).  Returns the repaired state and the effect trace. -/
def doWalletFileConsistencyCheck (fs : WFS) : WFS × List FsEffect :=
  let b0 : List Nat := match fs.backup with
    | none => fs.primary
    | some b => b
  let buf0 : Bool := match fs.backup with
    | none => false
    | some _ => fs.buf
  let tr0 : List FsEffect := match fs.backup with
    | none => [.touchBUF, .copyPtoB, .removeBUF]
    | some _ => []
  if fs.muf ∧ buf0 then
    (⟨fs.primary, some fs.primary, false, false⟩, tr0 ++ [.copyPtoB, .removeMUF, .removeBUF])
  else if fs.muf then
    (⟨b0, some b0, false, buf0⟩, tr0 ++ [.copyBtoP, .removeMUF])
  else if buf0 then
    (⟨fs.primary, some fs.primary, fs.muf, false⟩, tr0 ++ [.copyPtoB, .removeBUF])
  else
    (⟨fs.primary, some b0, fs.muf, buf0⟩, tr0)

/-- The consistency check as the claim words it (C2): if only `MUF` exists,
copy `B` over `P` and remove `MUF` (impossible — `none` — when the backup is
absent); if only `BUF` exists, copy `P` over `B` and remove `BUF`; if both
exist, copy `P` over `B` and remove both; if neither and `B` is absent, create
`B` as a copy of `P` under the `BUF` fence. -/
def claimConsistencyCheck (fs : WFS) : Option WFS :=
  if fs.muf ∧ ¬fs.buf then
    match fs.backup with
    | none => none
    | some b => some ⟨b, some b, false, false⟩
  else if fs.buf ∧ ¬fs.muf then
    some ⟨fs.primary, some fs.primary, fs.muf, false⟩
  else if fs.muf ∧ fs.buf then
    some ⟨fs.primary, some fs.primary, false, false⟩
  else if fs.backup = none then
    some ⟨fs.primary, some fs.primary, fs.muf, fs.buf⟩
  else
    some fs

/-- The consistency check as amended: the absent-backup creation step runs
first, regardless of sentinels; the sentinel cases are then evaluated against
the resulting state (on which the backup exists and `BUF` is clear whenever
the backup had to be created). -/
def amendedConsistencyCheck (fs : WFS) : WFS :=
  let fs1 : WFS := match fs.backup with
    | none => ⟨fs.primary, some fs.primary, fs.muf, false⟩
    | some _ => fs
  if fs1.muf ∧ ¬fs1.buf then
    match fs1.backup with
    | none => fs1
    | some b => ⟨b, some b, false, false⟩
  else if fs1.buf ∧ ¬fs1.muf then
    ⟨fs1.primary, some fs1.primary, fs1.muf, false⟩
  else if fs1.muf ∧ fs1.buf then
    ⟨fs1.primary, some fs1.primary, false, false⟩
  else
    fs1

/-! ## The safe-update engine (`walletFileSafeUpdate`, lines 1982-2151) -/

/-- The third element of an `ADD` triple: either a `PyBtcAddress` object
(carried here by its fixed-width serialization) or a python string. -/
inductive AddPayload where
  | addrObj (ser : List Nat)
  | strData (s : List Nat)
  deriving Repr, DecidableEq

/-- One element of the `updateList` argument of `walletFileSafeUpdate`:
`[WLT_UPDATE_ADD, dtype, id, payload]` or `[WLT_UPDATE_MODIFY, loc, bytes]`. -/
inductive WltUpd where
  | add (dtype : Nat) (id160 : List Nat) (payload : AddPayload)
  | modify (loc : Nat) (bytes : List Nat)
  deriving Repr, DecidableEq

/-- Serialization of one `ADD` entry by the input loop of
`walletFileSafeUpdate` (lines 2062-2081): key data must carry a 20-byte id and
an address object and packs `type byte || id || record`; comments must carry a
string and pack `type byte || id || u16 length || bytes`; `OP_EVAL` raises;
any other type byte matches no branch, appends nothing and raises nothing.
`none` models the raise (caught at line 2089, making the call return `[]`). -/
def packAdd (dtype : Nat) (id160 : List Nat) (p : AddPayload) : Option (List Nat) :=
  if dtype = WLT_DATATYPE_KEYDATA then
    match p with
    | .addrObj ser =>
        if id160.length = 20 then some (WLT_DATATYPE_KEYDATA :: (id160 ++ ser)) else none
    | .strData _ => none
  else if dtype = WLT_DATATYPE_ADDRCOMMENT ∨ dtype = WLT_DATATYPE_TXCOMMENT then
    match p with
    | .strData s => some (dtype :: (id160 ++ toLE 2 s.length ++ s))
    | .addrObj _ => none
  else if dtype = WLT_DATATYPE_OPEVAL then
    none
  else
    some []

/-- The input loop of `walletFileSafeUpdate` (lines 2058-2091): walks the
update list threading the append blob built so far, recording for each `ADD`
the offset `oldWalletSize + sizeOfBlobSoFar` and for each `MODIFY` the
caller-supplied offset, and collecting the `(offset, bytes)` pairs of the
`MODIFY` entries in caller order.  Returns
`(updateLocations, binaryToAppend, dataToChange)`; `none` models the caught
exception path that makes the call return `[]`. -/
def collectUpdates (oldSize : Nat) (blob : List Nat) :
    List WltUpd → Option (List Nat × List Nat × List (Nat × List Nat))
  | [] => some ([], blob, [])
  | .add dtype id160 p :: rest =>
      match packAdd dtype id160 p with
      | none => none
      | some bs =>
          (collectUpdates oldSize (blob ++ bs) rest).map
            (fun r => ((oldSize + blob.length) :: r.1, r.2.1, r.2.2))
  | .modify loc bytes :: rest =>
      (collectUpdates oldSize blob rest).map
        (fun r => (loc :: r.1, r.2.1, (loc, bytes) :: r.2.2))

/-- Apply a list of seek-writes to a file, in order. -/
def applyMods (f : List Nat) : List (Nat × List Nat) → List Nat
  | [] => f
  | (loc, bytes) :: rest => applyMods (writeAt f loc bytes) rest

/-- Model of `walletFileSafeUpdate` (lines 1982-2151) on a state whose primary exists,
with the `interruptTest` flags false and no `IOError` from the OS: an empty
update list returns `[]` immediately (line 2040) with no filesystem effect;
otherwise the consistency check runs (line 2044), the update list is
serialized (returning `[]` with only the consistency-check effects on bad
input), and the protocol runs: touch `MUF`; append the blob to `P` and apply
each `MODIFY` to `P` in order; touch `BUF`; remove `MUF`; append the blob to
`B` and apply each `MODIFY` to `B`; remove `BUF`.  Returns the final state,
the effect trace, and the update locations. -/
def walletFileSafeUpdate (fs : WFS) (updateList : List WltUpd) :
    WFS × List FsEffect × List Nat :=
  if updateList = [] then (fs, [], [])
  else
    let cc := doWalletFileConsistencyCheck fs
    let fs1 := cc.1
    match collectUpdates fs1.primary.length [] updateList with
    | none => (fs1, cc.2, [])
    | some (locs, blob, mods) =>
        let b1 : List Nat := match fs1.backup with
          | none => []
          | some b => b
        (⟨applyMods (fs1.primary ++ blob) mods, some (applyMods (b1 ++ blob) mods),
          false, false⟩,
         cc.2 ++ [.touchMUF, .appendP blob]
              ++ mods.map (fun m => FsEffect.seekWriteP m.1 m.2)
              ++ [.touchBUF, .removeMUF, .appendB blob]
              ++ mods.map (fun m => FsEffect.seekWriteB m.1 m.2)
              ++ [.removeBUF],
         locs)

/-- The `MODIFY` entries of an update list, in caller order. -/
def modifiesOf (ul : List WltUpd) : List (Nat × List Nat) :=
  ul.filterMap (fun e => match e with
    | .modify loc bytes => some (loc, bytes)
    | .add _ _ _ => none)

/-- The return value as the claim words it (C5): one offset per entry in input
order — for an `ADD`, the pre-update file size plus the cumulative size of the
appends serialized before it; for a `MODIFY`, the caller-supplied offset. -/
def claimLocations (oldSize : Nat) : List WltUpd → List Nat
  | [] => []
  | .add dtype id160 p :: rest =>
      oldSize :: claimLocations (oldSize + ((packAdd dtype id160 p).getD []).length) rest
  | .modify loc _ :: rest => loc :: claimLocations oldSize rest

/-! ## Imported-key deletion (`deleteImportedAddress`, lines 2226-2257) -/

/-- The overwrite bytes built at lines 2245-2248: the deleted type byte, a
2-byte little-endian length `20 + pybtcaddrSize - 2`, then that many zero
bytes (`pybtcaddrSize` is the fixed address-record width). -/
def tombstoneBytes (aSize : Nat) : List Nat :=
  WLT_DATATYPE_DELETED :: (toLE 2 (20 + aSize - 2) ++ List.replicate (20 + aSize - 2) 0)

/-- Model of `deleteImportedAddress` (lines 2226-2257) reduced to its decision and the
update batch it hands to `walletFileSafeUpdate`: the address (given here by
its `chainIndex` and `walletByteLoc`) must have `chainIndex == -2`, else
`WalletAddressError` is raised with no state change; on success exactly one
in-place `MODIFY` at `walletByteLoc - 21` writes `tombstoneBytes`, and the
wallet is then re-read from disk. -/
def deleteImportedAddress (chainIndex : Int) (walletByteLoc : Nat) (aSize : Nat) :
    Except String (List (Nat × List Nat)) :=
  if chainIndex ≠ -2 then
    Except.error "You can only delete imported addresses!"
  else
    Except.ok [(walletByteLoc - 21, tombstoneBytes aSize)]

/-! ## KDF parameter codec (lines 1253-1314) -/

/-- Modelled from the spec, section 4.1: `verifyChecksum(payload, chk)` of
ArmoryUtils returns the payload when `checksum4(payload) == chk`, otherwise
scans single-byte repairs (each position in turn, each replacement byte,
accepting the first match) and returns the empty result on failure.  The
checksum function itself (`checksum4 = firstFourBytes(doubleSHA256)`) is
abstracted as the parameter `chk`. -/
def verifyChecksum (chk : List Nat → List Nat) (payload chkBytes : List Nat) :
    Option (List Nat) :=
  if chk payload = chkBytes then some payload
  else
    (List.range payload.length).findSome? (fun pos =>
      (List.range 256).findSome? (fun v =>
        let fixed := payload.take pos ++ v :: payload.drop (pos + 1)
        if chk fixed = chkBytes then some fixed else none))

/-- Model of `serializeKdfParams` (lines 1253-1277): no KDF serializes as 256 zero
bytes; otherwise `memoryBytes (u64) || iterations (u32) || salt (32-byte
chunk) || checksum4(first 44 bytes) || zero padding` to 256 bytes.  The
checksum function is the parameter `chk` (its first 4 bytes are used, as a
width-4 chunk). -/
def serializeKdfParams (chk : List Nat → List Nat)
    (kdf : Option (Nat × Nat × List Nat)) : List Nat :=
  match kdf with
  | none => List.replicate 256 0
  | some (mem, niter, salt) =>
      let kdfStr := toLE 8 mem ++ toLE 4 niter ++ chunkPad 32 salt
      let withChk := kdfStr ++ chunkPad 4 (chk kdfStr)
      withChk ++ List.replicate (256 - withChk.length) 0

/-- Model of `unserializeKdfParams` (lines 1282-1314): read 44 data bytes, 4 checksum
bytes and the padding; 44 zero data bytes mean no KDF (`None`); otherwise
apply checksum verification with single-byte repair, raising
`UnserializeError` on failure (`Except.error`); when the repaired data differs
from the read data, an in-place rewrite of the KDF slot at `offsetKdfParams`
is scheduled (lines 2302-2304, returned here as the second component); the
repaired data is then parsed as `(memoryBytes, iterations, salt)`. -/
def unserializeKdfParams (chk : List Nat → List Nat) (offsetKdfParams : Nat)
    (blob : List Nat) :
    Except String (Option (Nat × Nat × List Nat) × List (Nat × List Nat)) :=
  let allKdfData := blob.take 44
  let kdfChksum := (blob.drop 44).take 4
  if allKdfData = List.replicate 44 0 then
    Except.ok (none, [])
  else
    match verifyChecksum chk allKdfData kdfChksum with
    | none => Except.error "Corrupted KDF params, could not fix"
    | some fixed =>
        let updates := if fixed = allKdfData then [] else [(offsetKdfParams, fixed)]
        let mem := fromLE (fixed.take 8)
        let niter := fromLE ((fixed.drop 8).take 4)
        let salt := (fixed.drop 12).take 32
        Except.ok (some (mem, niter, salt), updates)

/-! ## External-key import (`importExternalAddressData`, lines 2261-2394) -/

/-- The caller-visible outcome of `importExternalAddressData`. -/
inductive ImportOutcome where
  | emptyStr
  | errNotPrivate
  | dupNone
  | errLocked
  | errNoKeyData
  | imported (a160 : List Nat)
  deriving Repr, DecidableEq

/-- The wallet state consulted and mutated by `importExternalAddressData`. -/
structure ImpState where
  watchingOnly : Bool
  useEncryption : Bool
  kdfKeyPresent : Bool
  calledFromBDM : Bool
  addrKeys : List (List Nat)
  deriving Repr, DecidableEq

/-- The duplicate test of line 2331, `self.addrMap.has_key(addr20)`, on the
caller-supplied optional hash (`has_key(None)` is false). -/
def suppliedDup (w : ImpState) (addr20 : Option (List Nat)) : Bool :=
  match addr20 with
  | some a => decide (a ∈ w.addrKeys)
  | none => false

/-- Model of `importExternalAddressData` (lines 2261-2394) with the checksum arguments
at their `None` defaults, over abstract crypto primitives `computePub`
(`CryptoECDSA().ComputePublicKey`) and `hashOfPub`
(`convertKeyDataToAddress`, the hash160 of a public key).  Mirrors the code:
return `''` when called from the BDM (line 2286); raise unless a private key
is supplied or the wallet is watching-only (line 2295); compute the public
key and hash160 from the supplied material (lines 2300-2320); return `None`
when the *supplied* `addr20` is already a key of `addrMap` (line 2331); the
supplied-versus-computed mismatch checks of lines 2335-2338 are commented out
in the source, and line 2340 rebinds `addr20` to the computed hash; return
`None` on a computed duplicate (line 2342); raise `WalletLockError` when the
wallet is encrypted, a private key is supplied and no kdf key is cached
(lines 2347-2348); otherwise append the new address (its hash160 being the
computed hash) to the wallet maps.  With neither key supplied, line 2365
builds the address from the rebound `addr20`, which is `None` — modelled as
`errNoKeyData`.  Error paths leave the state unchanged. -/
def importExternalAddressData (computePub hashOfPub : List Nat → List Nat)
    (w : ImpState) (privKey pubKey addr20 : Option (List Nat)) :
    ImportOutcome × ImpState :=
  if w.calledFromBDM then (.emptyStr, w)
  else if privKey = none ∧ ¬w.watchingOnly then (.errNotPrivate, w)
  else
    let computedAddr20 : Option (List Nat) :=
      match privKey with
      | some pk => some (hashOfPub (computePub pk))
      | none => pubKey.map hashOfPub
    if suppliedDup w addr20 = true then (.dupNone, w)
    else
      match computedAddr20 with
      | none => (.errNoKeyData, w)
      | some a =>
          if a ∈ w.addrKeys then (.dupNone, w)
          else if w.useEncryption ∧ privKey.isSome ∧ ¬w.kdfKeyPresent then
            (.errLocked, w)
          else
            (.imported a, { w with addrKeys := w.addrKeys ++ [a] })

/-! ## Chain and pool state machine (lines 756-972)

The per-claim state is the triple tracked by the pool discipline —
`highestUsedChainIndex`, `lastComputedChainIndex`, `addrPoolSize` — plus the
6-byte unique ID, which no pool operation touches. -/

structure ChainSt where
  highestUsed : Int
  lastComputed : Int
  addrPoolSize : Nat
  uniqueID : List Nat
  deriving Repr, DecidableEq

/-- The unique ID computed at wallet creation (line 763):
`(ADDRBYTE + firstAddr.getAddr160()[:5])[::-1]` — the single network address
byte followed by the first 5 bytes of the first chained address's hash160,
reversed. -/
def makeUniqueID (addrByte : Nat) (first160 : List Nat) : List Nat :=
  (addrByte :: first160.take 5).reverse

/-- The unique ID as the claim words it (C9): the reverse of the 4-byte chain
magic concatenated with the first 5 bytes of the first chained address's
hash160. -/
def claimUniqueID (chainMagic : List Nat) (first160 : List Nat) : List Nat :=
  (chainMagic ++ first160.take 5).reverse

/-- Model of `fillAddressPool_` (lines 943-962): with `numPool` addresses requested,
`numToCreate = max(numPool - (lastComputed - highestUsed), 0)` successive
`computeNextAddress` calls each extend the chain tip by one, so the new tip is
`max lastComputed (highestUsed + numPool)`. -/
def fillPool (numPool : Nat) (s : ChainSt) : ChainSt :=
  { s with lastComputed := max s.lastComputed (s.highestUsed + numPool) }

/-- Model of `advanceHighestIndex` (lines 839-847): clamp
`highestUsed + ct` into `[0, lastComputed]` (a `min` with the top, then a
`max` with 0, in that order), write the new value through one `MODIFY`, then
`fillAddressPool()` at the default pool size. -/
def advanceHighestIndex (ct : Int) (s : ChainSt) : ChainSt :=
  fillPool s.addrPoolSize
    { s with highestUsed := max (min (s.highestUsed + ct) s.lastComputed) 0 }

/-- Model of `getNextUnusedAddress` (lines 863-874): refill the pool first when the gap
is below `max(addrPoolSize - 1, 1)`, then `advanceHighestIndex(1)` (the
subsequent touch-and-rewrite of the returned address does not move the
indices). -/
def getNextUnusedAddress (s : ChainSt) : ChainSt :=
  let s1 := if s.lastComputed - s.highestUsed < max ((s.addrPoolSize : Int) - 1) 1
            then fillPool s.addrPoolSize s else s
  advanceHighestIndex 1 s1

/-- The state set by `createNewWallet` (lines 756-836): the first chained
address has chain index 0, `lastComputed = 0`,
`highestUsed = firstAddr.chainIndex - 1 = -1`, the unique ID is derived from
the network byte and the first address hash, and the pool is then filled to
`addrPoolSize` (line 829). -/
def createNewWallet (addrPoolSize : Nat) (addrByte : Nat) (first160 : List Nat) : ChainSt :=
  fillPool addrPoolSize
    { highestUsed := -1, lastComputed := 0, addrPoolSize := addrPoolSize,
      uniqueID := makeUniqueID addrByte first160 }

/-- The chain/pool operations reachable through the public API (the claims
cite `advanceHighestIndex`, `getNextUnusedAddress` and `fillAddressPool_`;
`computeNextAddress` at the tip and `setAddrPoolSize`, which feed them, are
included). -/
inductive ChainStep : ChainSt → ChainSt → Prop where
  | advance (ct : Int) (s : ChainSt) : ChainStep s (advanceHighestIndex ct s)
  | getNextUnused (s : ChainSt) : ChainStep s (getNextUnusedAddress s)
  | fillAddressPool (numPool : Nat) (s : ChainSt) : ChainStep s (fillPool numPool s)
  | computeNext (s : ChainSt) : ChainStep s { s with lastComputed := s.lastComputed + 1 }
  | setAddrPoolSize (n : Nat) (s : ChainSt) (h : 5 ≤ n) :
      ChainStep s (fillPool n { s with addrPoolSize := n })

/-- States reachable through the public API from a freshly created wallet. -/
inductive ChainReachable (addrPoolSize : Nat) (addrByte : Nat) (first160 : List Nat) :
    ChainSt → Prop where
  | created : ChainReachable addrPoolSize addrByte first160
      (createNewWallet addrPoolSize addrByte first160)
  | step (s t : ChainSt) (hs : ChainReachable addrPoolSize addrByte first160 s)
      (hst : ChainStep s t) : ChainReachable addrPoolSize addrByte first160 t

/-! ## Whole streams of well-formed records -/

/-- Byte strings that are a concatenation of whole, self-delimiting entry
records (the shape every stream written by the wallet codec has), together
with the records they parse to. -/
inductive ParsesTo (aSize : Nat) : List Nat → List WEntry → Prop where
  | nil : ParsesTo aSize [] []
  | keyData (id160 ser rest : List Nat) (es : List WEntry)
      (h20 : id160.length = 20) (hser : ser.length = aSize)
      (hrest : ParsesTo aSize rest es) :
      ParsesTo aSize (WLT_DATATYPE_KEYDATA :: (id160 ++ (ser ++ rest)))
        (WEntry.keyData id160 ser :: es)
  | addrComment (id160 s rest : List Nat) (es : List WEntry)
      (h20 : id160.length = 20) (hs : s.length < 65536)
      (hrest : ParsesTo aSize rest es) :
      ParsesTo aSize
        (WLT_DATATYPE_ADDRCOMMENT :: (id160 ++ (toLE 2 s.length ++ (s ++ rest))))
        (WEntry.addrComment id160 s :: es)
  | txComment (txh s rest : List Nat) (es : List WEntry)
      (h32 : txh.length = 32) (hs : s.length < 65536)
      (hrest : ParsesTo aSize rest es) :
      ParsesTo aSize
        (WLT_DATATYPE_TXCOMMENT :: (txh ++ (toLE 2 s.length ++ (s ++ rest))))
        (WEntry.txComment txh s :: es)
  | deleted (len : Nat) (body rest : List Nat) (es : List WEntry)
      (hbody : body.length = len) (hlen : len < 65536)
      (hrest : ParsesTo aSize rest es) :
      ParsesTo aSize (WLT_DATATYPE_DELETED :: (toLE 2 len ++ (body ++ rest)))
        (WEntry.deleted len :: es)
  | unknown (d : Nat) (rest : List Nat) (es : List WEntry) (hd : 5 ≤ d)
      (hrest : ParsesTo aSize rest es) :
      ParsesTo aSize (d :: rest) (WEntry.unknown d :: es)

/-- The hash160 keys under which `readWalletFile` stores key-data entries in
`addrMap` (lines 1930-1946); comments, tombstones and unknown records add no
address. -/
def keyIds (es : List WEntry) : List (List Nat) :=
  es.filterMap (fun e => match e with
    | .keyData id160 _ => some id160
    | _ => none)

/-- Concrete checksum function for the C7 witness: returns 9,9,9,9 on blocks
starting with a zero byte and 1,2,3,4 on everything else. -/
def kdfChkWitness (l : List Nat) : List Nat :=
  if l.headD 1 = 0 then [9, 9, 9, 9] else [1, 2, 3, 4]

theorem toLE_length (w n : Nat) : (toLE w n).length = w := by
  induction w generalizing n with
  | zero => rfl
  | succ w ih => simp [toLE, ih]

theorem fromLE_toLE (w n : Nat) (h : n < 256 ^ w) : fromLE (toLE w n) = n := by
  induction w generalizing n with
  | zero => simp [pow_zero] at h; simp [toLE, fromLE, h]
  | succ w ih =>
      have hdiv : n / 256 < 256 ^ w := by
        have h256 : (0:Nat) < 256 := by norm_num
        rw [Nat.div_lt_iff_lt_mul h256]
        calc n < 256 ^ (w + 1) := h
        _ = 256 ^ w * 256 := by ring
      simp [toLE, fromLE, ih _ hdiv]
      omega

theorem chunkPad_length (w : Nat) (s : List Nat) (h : s.length ≤ w) :
    (chunkPad w s).length = w := by
  simp [chunkPad]
  omega

/-! ## Helper lemmas -/

theorem chainStep_uniqueID (s t : ChainSt) (h : ChainStep s t) : t.uniqueID = s.uniqueID := by
  cases h with
  | advance ct s => simp [advanceHighestIndex, fillPool]
  | getNextUnused s =>
      simp only [getNextUnusedAddress, advanceHighestIndex, fillPool]
      split <;> rfl
  | fillAddressPool numPool s => simp [fillPool]
  | computeNext s => simp
  | setAddrPoolSize n s hn => simp [fillPool]

theorem chainStep_inv (s t : ChainSt) (h : ChainStep s t)
    (h1 : -1 ≤ s.highestUsed) (h2 : s.highestUsed ≤ s.lastComputed)
    (h3 : 0 ≤ s.lastComputed) :
    -1 ≤ t.highestUsed ∧ t.highestUsed ≤ t.lastComputed ∧ 0 ≤ t.lastComputed := by
  cases h with
  | advance ct s =>
      simp only [advanceHighestIndex, fillPool]
      refine ⟨?_, ?_, ?_⟩ <;> (try simp) <;> omega
  | getNextUnused s =>
      simp only [getNextUnusedAddress, advanceHighestIndex, fillPool]
      split <;> (refine ⟨?_, ?_, ?_⟩ <;> (try simp) <;> omega)
  | fillAddressPool numPool s =>
      simp only [fillPool]
      refine ⟨?_, ?_, ?_⟩ <;> (try simp) <;> omega
  | computeNext s =>
      refine ⟨?_, ?_, ?_⟩ <;> (try simp) <;> omega
  | setAddrPoolSize n s hn =>
      simp only [fillPool]
      refine ⟨?_, ?_, ?_⟩ <;> (try simp) <;> omega

theorem chainReachable_inv (n a : Nat) (f : List Nat) (s : ChainSt)
    (h : ChainReachable n a f s) :
    -1 ≤ s.highestUsed ∧ s.highestUsed ≤ s.lastComputed ∧ 0 ≤ s.lastComputed := by
  induction h with
  | created =>
      simp only [createNewWallet, fillPool]
      refine ⟨?_, ?_, ?_⟩ <;> (try simp) <;> omega
  | step s t hs hst ih => exact chainStep_inv s t hst ih.1 ih.2.1 ih.2.2

theorem getNextUnused_gap (s : ChainSt) :
    (s.addrPoolSize : Int) - 1 ≤
      (getNextUnusedAddress s).lastComputed - (getNextUnusedAddress s).highestUsed := by
  simp only [getNextUnusedAddress, advanceHighestIndex, fillPool]
  split <;> simp <;> omega

/-! ## Claim C10 — empty update list -/

/-- C10: calling `walletFileSafeUpdate` with an empty update list on an
existing wallet file returns the empty list and performs no filesystem effect
at all — the returned state is unchanged, the effect trace is empty (so no
sentinel is touched or removed, the consistency check never runs, and neither
file is opened or written), and the offset list is empty. -/
theorem emptyUpdate_noEffect (fs : WFS) :
    walletFileSafeUpdate fs [] = (fs, [], []) := by
  simp [walletFileSafeUpdate]

/-! ## Claim C2 — consistency-check repair -/

/-- C2 counterexample: on the state where only the main-update sentinel exists
and the backup file is absent, the claim prescribes copying the (absent)
backup over the primary — `claimConsistencyCheck` has no result — while the
code first creates the backup as a copy of the primary under the `BUF` fence
and then restores the primary from that fresh copy, leaving the primary
intact. -/
theorem consistencyCheck_claim_fails_on_absent_backup :
    claimConsistencyCheck ⟨[1], none, true, false⟩ = none ∧
    doWalletFileConsistencyCheck ⟨[1], none, true, false⟩ =
      (⟨[1], some [1], false, false⟩,
       [.touchBUF, .copyPtoB, .removeBUF, .copyBtoP, .removeMUF]) := by
  constructor <;> rfl

/-- C2 as amended: the absent-backup creation step runs first, regardless of
sentinels, and the sentinel cases are then evaluated on the resulting state —
`amendedConsistencyCheck` describes the final state for every input state;
moreover, when the backup exists, only the main-update sentinel set means copy
backup over primary and remove it, only the backup-update sentinel set means
copy primary over backup and remove it, both set means copy primary over
backup and remove both, and with neither sentinel an absent backup is created
as a copy of the primary while the backup-update sentinel is held. -/
theorem consistencyCheck_cases (fs : WFS) :
    (doWalletFileConsistencyCheck fs).1 = amendedConsistencyCheck fs ∧
    (∀ b, fs.backup = some b → fs.muf = true → fs.buf = false →
      doWalletFileConsistencyCheck fs =
        (⟨b, some b, false, false⟩, [.copyBtoP, .removeMUF])) ∧
    (fs.backup ≠ none → fs.muf = false → fs.buf = true →
      doWalletFileConsistencyCheck fs =
        (⟨fs.primary, some fs.primary, false, false⟩, [.copyPtoB, .removeBUF])) ∧
    (fs.backup ≠ none → fs.muf = true → fs.buf = true →
      doWalletFileConsistencyCheck fs =
        (⟨fs.primary, some fs.primary, false, false⟩,
         [.copyPtoB, .removeMUF, .removeBUF])) ∧
    (fs.backup = none → fs.muf = false → fs.buf = false →
      doWalletFileConsistencyCheck fs =
        (⟨fs.primary, some fs.primary, false, false⟩,
         [.touchBUF, .copyPtoB, .removeBUF])) := by
  obtain ⟨p, b, m, u⟩ := fs
  cases b <;> cases m <;> cases u <;>
    simp [doWalletFileConsistencyCheck, amendedConsistencyCheck]

/-- Witness for the amended C2 at a concrete dirty state: only the main-update
sentinel set, backup present. -/
theorem consistencyCheck_cases_witness :
    doWalletFileConsistencyCheck ⟨[1, 2], some [3], true, false⟩ =
      (⟨[3], some [3], false, false⟩, [.copyBtoP, .removeMUF]) :=
  (consistencyCheck_cases ⟨[1, 2], some [3], true, false⟩).2.1 [3] rfl rfl rfl

/-! ## Claim C6 — pool discipline -/

/-- C6 counterexample: the state of a freshly created wallet (pool size 5) is
reachable through the public API and has `highestUsedChainIndex = -1`, so
`0 ≤ highestUsedChainIndex` fails (the spec's own scenario S1 expects the
value -1 after creation). -/
theorem poolDiscipline_claim_fails_after_create :
    ChainReachable 5 0 (List.replicate 20 7)
      (createNewWallet 5 0 (List.replicate 20 7)) ∧
    (createNewWallet 5 0 (List.replicate 20 7)).highestUsed = -1 ∧
    ¬(0 ≤ (createNewWallet 5 0 (List.replicate 20 7)).highestUsed) := by
  refine ⟨ChainReachable.created, by decide, by decide⟩

/-- C6 as amended: in every state reachable through the public API,
`-1 ≤ highestUsedChainIndex ≤ lastComputedChainIndex` holds (the lower bound
is -1, reached from creation until the first use, not 0), and after any
`getNextUnusedAddress` call completes the gap satisfies
`lastComputedChainIndex - highestUsedChainIndex ≥ addrPoolSize - 1`. -/
theorem poolDiscipline (n a : Nat) (f : List Nat) (s : ChainSt)
    (hs : ChainReachable n a f s) :
    (-1 ≤ s.highestUsed ∧ s.highestUsed ≤ s.lastComputed) ∧
    (s.addrPoolSize : Int) - 1 ≤
      (getNextUnusedAddress s).lastComputed - (getNextUnusedAddress s).highestUsed := by
  have h := chainReachable_inv n a f s hs
  exact ⟨⟨h.1, h.2.1⟩, getNextUnused_gap s⟩

/-- Witness for the amended C6 at the concrete created wallet (pool size 5,
hash160 of 20 sevens). -/
theorem poolDiscipline_witness :
    ((-1 ≤ (createNewWallet 5 0 (List.replicate 20 7)).highestUsed ∧
      (createNewWallet 5 0 (List.replicate 20 7)).highestUsed ≤
        (createNewWallet 5 0 (List.replicate 20 7)).lastComputed) ∧
     ((createNewWallet 5 0 (List.replicate 20 7)).addrPoolSize : Int) - 1 ≤
       (getNextUnusedAddress (createNewWallet 5 0 (List.replicate 20 7))).lastComputed -
         (getNextUnusedAddress (createNewWallet 5 0 (List.replicate 20 7))).highestUsed) :=
  poolDiscipline 5 0 (List.replicate 20 7) _ ChainReachable.created

/-! ## Claim C9 — unique-ID law -/

/-- C9 counterexample: with the mainnet network byte 0 and the Bitcoin chain
magic f9 be b4 d9, the unique ID computed at creation (line 763) is the
6-byte reverse of the network byte plus the first 5 hash bytes — it is not the
reverse of the 4-byte chain magic plus those 5 bytes, which would have 9
bytes. -/
theorem uniqueID_claim_fails :
    makeUniqueID 0 [1, 2, 3, 4, 5, 6] = [5, 4, 3, 2, 1, 0] ∧
    claimUniqueID [249, 190, 180, 217] [1, 2, 3, 4, 5, 6] =
      [5, 4, 3, 2, 1, 217, 180, 190, 249] ∧
    makeUniqueID 0 [1, 2, 3, 4, 5, 6] ≠
      claimUniqueID [249, 190, 180, 217] [1, 2, 3, 4, 5, 6] := by
  refine ⟨by decide, by decide, by decide⟩

/-- C9 as amended: at all times after wallet creation, the 6-byte unique ID
equals the reverse of the single network address byte concatenated with the
first 5 bytes of the first chained address's hash160 (the network byte, not
the 4-byte chain magic), i.e.
`uniqueID == reverse(networkByte ++ firstChained.hash160[:5])`. -/
theorem uniqueID_law (n a : Nat) (f : List Nat) (s : ChainSt)
    (hs : ChainReachable n a f s) :
    s.uniqueID = (a :: f.take 5).reverse ∧ s.uniqueID = makeUniqueID a f := by
  have key : s.uniqueID = makeUniqueID a f := by
    induction hs with
    | created => simp [createNewWallet, fillPool]
    | step s t hs hst ih => rw [chainStep_uniqueID s t hst, ih]
  exact ⟨by rw [key]; rfl, key⟩

/-- Witness for the amended C9 at the concrete created wallet. -/
theorem uniqueID_law_witness :
    (createNewWallet 5 0 [1, 2, 3, 4, 5, 6]).uniqueID = [5, 4, 3, 2, 1, 0] := by
  have h := (uniqueID_law 5 0 [1, 2, 3, 4, 5, 6] _ ChainReachable.created).1
  simpa using h

/-! ## Lemmas about the safe-update input loop -/

theorem collectUpdates_mods (ul : List WltUpd) :
    ∀ oldSize blob locs b2 mods,
      collectUpdates oldSize blob ul = some (locs, b2, mods) → mods = modifiesOf ul := by
  induction ul with
  | nil =>
      intro oldSize blob locs b2 mods h
      simp [collectUpdates] at h
      simp [modifiesOf, h.2.2.symm]
  | cons e rest ih =>
      intro oldSize blob locs b2 mods h
      cases e with
      | add dtype id160 p =>
          simp only [collectUpdates] at h
          cases hp : packAdd dtype id160 p with
          | none => simp [hp] at h
          | some bs =>
              cases hc : collectUpdates oldSize (blob ++ bs) rest with
              | none => simp [hp, hc] at h
              | some r =>
                  obtain ⟨locs2, b3, mods2⟩ := r
                  simp [hp, hc] at h
                  rw [← h.2.2]
                  simpa [modifiesOf] using ih oldSize (blob ++ bs) locs2 b3 mods2 hc
      | modify loc bytes =>
          simp only [collectUpdates] at h
          cases hc : collectUpdates oldSize blob rest with
          | none => simp [hc] at h
          | some r =>
              obtain ⟨locs2, b3, mods2⟩ := r
              simp [hc] at h
              rw [← h.2.2]
              simpa [modifiesOf] using ih oldSize blob locs2 b3 mods2 hc

theorem collectUpdates_locs (ul : List WltUpd) :
    ∀ oldSize blob locs b2 mods,
      collectUpdates oldSize blob ul = some (locs, b2, mods) →
      locs = claimLocations (oldSize + blob.length) ul := by
  induction ul with
  | nil =>
      intro oldSize blob locs b2 mods h
      simp [collectUpdates] at h
      simp [claimLocations, h.1.symm]
  | cons e rest ih =>
      intro oldSize blob locs b2 mods h
      cases e with
      | add dtype id160 p =>
          simp only [collectUpdates] at h
          cases hp : packAdd dtype id160 p with
          | none => simp [hp] at h
          | some bs =>
              cases hc : collectUpdates oldSize (blob ++ bs) rest with
              | none => simp [hp, hc] at h
              | some r =>
                  obtain ⟨locs2, b3, mods2⟩ := r
                  simp [hp, hc] at h
                  have := ih oldSize (blob ++ bs) locs2 b3 mods2 hc
                  rw [← h.1]
                  simp [claimLocations, hp, this, Nat.add_assoc]
      | modify loc bytes =>
          simp only [collectUpdates] at h
          cases hc : collectUpdates oldSize blob rest with
          | none => simp [hc] at h
          | some r =>
              obtain ⟨locs2, b3, mods2⟩ := r
              simp [hc] at h
              have := ih oldSize blob locs2 b3 mods2 hc
              rw [← h.1]
              simp [claimLocations, this]

theorem claimLocations_length (ul : List WltUpd) :
    ∀ oldSize, (claimLocations oldSize ul).length = ul.length := by
  induction ul with
  | nil => intro oldSize; rfl
  | cons e rest ih =>
      intro oldSize
      cases e <;> simp [claimLocations, ih]

theorem consistencyCheck_clean (p b : List Nat) :
    doWalletFileConsistencyCheck ⟨p, some b, false, false⟩ =
      (⟨p, some b, false, false⟩, []) := rfl

/-! ## Claim C1 — order of filesystem effects -/

/-- C1: for every non-empty update batch accepted by `walletFileSafeUpdate`
(started from a clean state — no sentinel present and backup existing, so the
preliminary consistency check of protocol step 1 performs no effect), the
filesystem effects happen in exactly this order: touch the main-update
sentinel; append all `ADD` records to the primary in one blob and then
seek-write each `MODIFY` to the primary; touch the backup-update sentinel (so
both sentinels coexist momentarily); remove the main-update sentinel; append
and seek-write the same data to the backup; remove the backup-update sentinel.
Within the batch all appends precede all in-place modifications, and the
modifications are applied in the caller-supplied order (`modifiesOf`). -/
theorem safeUpdate_effect_order (p b : List Nat) (ul : List WltUpd)
    (locs blob : List Nat) (mods : List (Nat × List Nat))
    (hne : ul ≠ [])
    (hcol : collectUpdates p.length [] ul = some (locs, blob, mods)) :
    (walletFileSafeUpdate ⟨p, some b, false, false⟩ ul).2.1 =
      [.touchMUF, .appendP blob]
        ++ mods.map (fun m => FsEffect.seekWriteP m.1 m.2)
        ++ [.touchBUF, .removeMUF, .appendB blob]
        ++ mods.map (fun m => FsEffect.seekWriteB m.1 m.2)
        ++ [.removeBUF] ∧
    mods = modifiesOf ul := by
  constructor
  · simp [walletFileSafeUpdate, consistencyCheck_clean, hne, hcol]
  · exact collectUpdates_mods ul p.length [] locs blob mods hcol

/-- Witness for C1 at a concrete clean state and two-entry batch (one key-data
add followed by one modify). -/
theorem safeUpdate_effect_order_witness :
    (walletFileSafeUpdate ⟨[9, 9], some [9, 9], false, false⟩
        [.add 0 (List.replicate 20 3) (.addrObj [5, 6]), .modify 1 [7]]).2.1 =
      [.touchMUF, .appendP (0 :: (List.replicate 20 3 ++ [5, 6]))]
        ++ [((1 : Nat), [(7 : Nat)])].map (fun m => FsEffect.seekWriteP m.1 m.2)
        ++ [.touchBUF, .removeMUF, .appendB (0 :: (List.replicate 20 3 ++ [5, 6]))]
        ++ [((1 : Nat), [(7 : Nat)])].map (fun m => FsEffect.seekWriteB m.1 m.2)
        ++ [.removeBUF] ∧
    [((1 : Nat), [(7 : Nat)])] =
      modifiesOf [.add 0 (List.replicate 20 3) (.addrObj [5, 6]), .modify 1 [7]] :=
  safeUpdate_effect_order [9, 9] [9, 9] _ [2, 1] (0 :: (List.replicate 20 3 ++ [5, 6]))
    [(1, [7])] (by decide) (by decide)

/-! ## Claim C5 — returned offsets -/

/-- C5: for every update batch it accepts (from a clean state), the offsets
returned by `walletFileSafeUpdate` are one absolute file offset per input
entry, in input order: for an `ADD` the start of the new record —
the pre-update file size plus the cumulative size of the appends serialized
before it — and for a `MODIFY` the caller-supplied offset
(`claimLocations`). -/
theorem safeUpdate_locations (p b : List Nat) (ul : List WltUpd)
    (locs blob : List Nat) (mods : List (Nat × List Nat))
    (hne : ul ≠ [])
    (hcol : collectUpdates p.length [] ul = some (locs, blob, mods)) :
    (walletFileSafeUpdate ⟨p, some b, false, false⟩ ul).2.2 =
      claimLocations p.length ul ∧
    (claimLocations p.length ul).length = ul.length := by
  constructor
  · have hl := collectUpdates_locs ul p.length [] locs blob mods hcol
    simp [walletFileSafeUpdate, consistencyCheck_clean, hne, hcol]
    simpa using hl
  · exact claimLocations_length ul p.length

/-- Witness for C5 at a concrete clean state and three-entry batch
(modify, key-data add, comment add): offsets are the caller offset 4, then
file-end 6, then 6 plus the 23 bytes of the first append. -/
theorem safeUpdate_locations_witness :
    (walletFileSafeUpdate ⟨[1, 1, 1, 1, 1, 1], some [1, 1, 1, 1, 1, 1], false, false⟩
        [.modify 4 [8], .add 0 (List.replicate 20 2) (.addrObj [9, 9]),
         .add 1 (List.replicate 20 2) (.strData [65])]).2.2 =
      claimLocations 6
        [.modify 4 [8], .add 0 (List.replicate 20 2) (.addrObj [9, 9]),
         .add 1 (List.replicate 20 2) (.strData [65])] ∧
    (claimLocations 6
        [.modify 4 [8], .add 0 (List.replicate 20 2) (.addrObj [9, 9]),
         .add 1 (List.replicate 20 2) (.strData [65])]).length = 3 :=
  safeUpdate_locations [1, 1, 1, 1, 1, 1] [1, 1, 1, 1, 1, 1] _
    [4, 6, 29] (0 :: (List.replicate 20 2 ++ [9, 9]) ++ 1 :: (List.replicate 20 2 ++ [1, 0, 65]))
    [(4, [8])] (by decide) (by decide)

/-! ## Single-step reductions of the entry-stream read loop -/

theorem parseEntries_nil (aSize : Nat) : parseEntries aSize [] = some [] := by
  simp [parseEntries]

theorem parseEntries_keyData (aSize : Nat) (id160 ser rest : List Nat)
    (h20 : id160.length = 20) (hser : ser.length = aSize) :
    parseEntries aSize (WLT_DATATYPE_KEYDATA :: (id160 ++ (ser ++ rest))) =
      (parseEntries aSize rest).map (fun es => WEntry.keyData id160 ser :: es) := by
  have h1 : (id160 ++ (ser ++ rest)).take 20 = id160 := List.take_left' h20
  have h2 : (id160 ++ (ser ++ rest)).drop 20 = ser ++ rest := List.drop_left' h20
  have h3 : (ser ++ rest).take aSize = ser := List.take_left' hser
  have h4 : (id160 ++ (ser ++ rest)).drop (20 + aSize) = rest := by
    have : (20 : Nat) + aSize = 20 + aSize := rfl
    rw [show (20 : Nat) + aSize = 20 + aSize from rfl, ← List.drop_drop, h2,
        List.drop_left' hser]
  have hlen : 20 + aSize ≤ (id160 ++ (ser ++ rest)).length := by
    simp only [List.length_append, h20, hser]
    omega
  simp only [parseEntries]
  rw [if_pos trivial, if_pos hlen]
  simp only [h1, h2, h3, h4]

theorem parseEntries_addrComment (aSize : Nat) (id160 s rest : List Nat)
    (h20 : id160.length = 20) (hs : s.length < 65536) :
    parseEntries aSize
        (WLT_DATATYPE_ADDRCOMMENT :: (id160 ++ (toLE 2 s.length ++ (s ++ rest)))) =
      (parseEntries aSize rest).map (fun es => WEntry.addrComment id160 s :: es) := by
  have hlen2 : (toLE 2 s.length).length = 2 := toLE_length 2 s.length
  have h1 : (id160 ++ (toLE 2 s.length ++ (s ++ rest))).take 20 = id160 :=
    List.take_left' h20
  have h2 : (id160 ++ (toLE 2 s.length ++ (s ++ rest))).drop 20 =
      toLE 2 s.length ++ (s ++ rest) := List.drop_left' h20
  have h3 : (toLE 2 s.length ++ (s ++ rest)).take 2 = toLE 2 s.length :=
    List.take_left' hlen2
  have hfrom : fromLE (toLE 2 s.length) = s.length := fromLE_toLE 2 s.length (by omega)
  have h4 : (id160 ++ (toLE 2 s.length ++ (s ++ rest))).drop 22 = s ++ rest := by
    rw [show (22 : Nat) = 20 + 2 from rfl, ← List.drop_drop, h2, List.drop_left' hlen2]
  have h5 : (s ++ rest).take s.length = s := List.take_left' rfl
  have h6 : (id160 ++ (toLE 2 s.length ++ (s ++ rest))).drop (22 + s.length) = rest := by
    rw [← List.drop_drop, h4, List.drop_left' rfl]
  have hlen22 : 22 ≤ (id160 ++ (toLE 2 s.length ++ (s ++ rest))).length := by
    simp only [List.length_append, h20, hlen2]
    omega
  have hlen : 22 + s.length ≤ (id160 ++ (toLE 2 s.length ++ (s ++ rest))).length := by
    simp only [List.length_append, h20, hlen2]
    omega
  have cneq : ¬(WLT_DATATYPE_ADDRCOMMENT = WLT_DATATYPE_KEYDATA) := by decide
  simp only [parseEntries]
  rw [if_neg cneq, if_pos trivial, if_pos hlen22]
  simp only [h2, h3, hfrom]
  rw [if_pos hlen]
  simp only [h1, h4, h5, h6]

theorem parseEntries_txComment (aSize : Nat) (txh s rest : List Nat)
    (h32 : txh.length = 32) (hs : s.length < 65536) :
    parseEntries aSize
        (WLT_DATATYPE_TXCOMMENT :: (txh ++ (toLE 2 s.length ++ (s ++ rest)))) =
      (parseEntries aSize rest).map (fun es => WEntry.txComment txh s :: es) := by
  have hlen2 : (toLE 2 s.length).length = 2 := toLE_length 2 s.length
  have h1 : (txh ++ (toLE 2 s.length ++ (s ++ rest))).take 32 = txh :=
    List.take_left' h32
  have h2 : (txh ++ (toLE 2 s.length ++ (s ++ rest))).drop 32 =
      toLE 2 s.length ++ (s ++ rest) := List.drop_left' h32
  have h3 : (toLE 2 s.length ++ (s ++ rest)).take 2 = toLE 2 s.length :=
    List.take_left' hlen2
  have hfrom : fromLE (toLE 2 s.length) = s.length := fromLE_toLE 2 s.length (by omega)
  have h4 : (txh ++ (toLE 2 s.length ++ (s ++ rest))).drop 34 = s ++ rest := by
    rw [show (34 : Nat) = 32 + 2 from rfl, ← List.drop_drop, h2, List.drop_left' hlen2]
  have h5 : (s ++ rest).take s.length = s := List.take_left' rfl
  have h6 : (txh ++ (toLE 2 s.length ++ (s ++ rest))).drop (34 + s.length) = rest := by
    rw [← List.drop_drop, h4, List.drop_left' rfl]
  have hlen34 : 34 ≤ (txh ++ (toLE 2 s.length ++ (s ++ rest))).length := by
    simp only [List.length_append, h32, hlen2]
    omega
  have hlen : 34 + s.length ≤ (txh ++ (toLE 2 s.length ++ (s ++ rest))).length := by
    simp only [List.length_append, h32, hlen2]
    omega
  have c0 : ¬(WLT_DATATYPE_TXCOMMENT = WLT_DATATYPE_KEYDATA) := by decide
  have c1 : ¬(WLT_DATATYPE_TXCOMMENT = WLT_DATATYPE_ADDRCOMMENT) := by decide
  simp only [parseEntries]
  rw [if_neg c0, if_neg c1, if_pos trivial, if_pos hlen34]
  simp only [h2, h3, hfrom]
  rw [if_pos hlen]
  simp only [h1, h4, h5, h6]

theorem parseEntries_opeval (aSize : Nat) (rest : List Nat) :
    parseEntries aSize (WLT_DATATYPE_OPEVAL :: rest) = none := by
  have c0 : ¬(WLT_DATATYPE_OPEVAL = WLT_DATATYPE_KEYDATA) := by decide
  have c1 : ¬(WLT_DATATYPE_OPEVAL = WLT_DATATYPE_ADDRCOMMENT) := by decide
  have c2 : ¬(WLT_DATATYPE_OPEVAL = WLT_DATATYPE_TXCOMMENT) := by decide
  simp only [parseEntries]
  rw [if_neg c0, if_neg c1, if_neg c2, if_pos trivial]

theorem parseEntries_deleted (aSize : Nat) (len : Nat) (body rest : List Nat)
    (hbody : body.length = len) (hlen : len < 65536) :
    parseEntries aSize (WLT_DATATYPE_DELETED :: (toLE 2 len ++ (body ++ rest))) =
      (parseEntries aSize rest).map (fun es => WEntry.deleted len :: es) := by
  have hlen2 : (toLE 2 len).length = 2 := toLE_length 2 len
  have h1 : (toLE 2 len ++ (body ++ rest)).take 2 = toLE 2 len := List.take_left' hlen2
  have hfrom : fromLE (toLE 2 len) = len := fromLE_toLE 2 len (by omega)
  have h2 : (toLE 2 len ++ (body ++ rest)).drop (2 + len) = rest := by
    rw [← List.drop_drop, List.drop_left' hlen2, List.drop_left' hbody]
  have hlen3 : 2 ≤ (toLE 2 len ++ (body ++ rest)).length := by
    simp only [List.length_append, hlen2]
    omega
  have c0 : ¬(WLT_DATATYPE_DELETED = WLT_DATATYPE_KEYDATA) := by decide
  have c1 : ¬(WLT_DATATYPE_DELETED = WLT_DATATYPE_ADDRCOMMENT) := by decide
  have c2 : ¬(WLT_DATATYPE_DELETED = WLT_DATATYPE_TXCOMMENT) := by decide
  have c3 : ¬(WLT_DATATYPE_DELETED = WLT_DATATYPE_OPEVAL) := by decide
  simp only [parseEntries]
  rw [if_neg c0, if_neg c1, if_neg c2, if_neg c3, if_pos trivial, if_pos hlen3]
  simp only [h1, hfrom, h2]

theorem parseEntries_unknown (aSize : Nat) (d : Nat) (rest : List Nat) (hd : 5 ≤ d) :
    parseEntries aSize (d :: rest) =
      (parseEntries aSize rest).map (fun es => WEntry.unknown d :: es) := by
  have c0 : ¬(d = WLT_DATATYPE_KEYDATA) := by
    simp only [WLT_DATATYPE_KEYDATA]
    omega
  have c1 : ¬(d = WLT_DATATYPE_ADDRCOMMENT) := by
    simp only [WLT_DATATYPE_ADDRCOMMENT]
    omega
  have c2 : ¬(d = WLT_DATATYPE_TXCOMMENT) := by
    simp only [WLT_DATATYPE_TXCOMMENT]
    omega
  have c3 : ¬(d = WLT_DATATYPE_OPEVAL) := by
    simp only [WLT_DATATYPE_OPEVAL]
    omega
  have c4 : ¬(d = WLT_DATATYPE_DELETED) := by
    simp only [WLT_DATATYPE_DELETED]
    omega
  simp only [parseEntries]
  rw [if_neg c0, if_neg c1, if_neg c2, if_neg c3, if_neg c4]

theorem parsesTo_append (aSize : Nat) (A : List Nat) (esA : List WEntry)
    (h : ParsesTo aSize A esA) (B : List Nat) :
    parseEntries aSize (A ++ B) = (parseEntries aSize B).map (fun es => esA ++ es) := by
  induction h with
  | nil =>
      simp
  | keyData id160 ser rest es h20 hser hrest ih =>
      have := parseEntries_keyData aSize id160 ser (rest ++ B) h20 hser
      simp only [List.cons_append, List.append_assoc] at this ⊢
      rw [this, ih]
      cases parseEntries aSize B <;> simp
  | addrComment id160 s rest es h20 hs hrest ih =>
      have := parseEntries_addrComment aSize id160 s (rest ++ B) h20 hs
      simp only [List.cons_append, List.append_assoc] at this ⊢
      rw [this, ih]
      cases parseEntries aSize B <;> simp
  | txComment txh s rest es h32 hs hrest ih =>
      have := parseEntries_txComment aSize txh s (rest ++ B) h32 hs
      simp only [List.cons_append, List.append_assoc] at this ⊢
      rw [this, ih]
      cases parseEntries aSize B <;> simp
  | deleted len body rest es hbody hlen hrest ih =>
      have := parseEntries_deleted aSize len body (rest ++ B) hbody hlen
      simp only [List.cons_append, List.append_assoc] at this ⊢
      rw [this, ih]
      cases parseEntries aSize B <;> simp
  | unknown d rest es hd hrest ih =>
      have := parseEntries_unknown aSize d (rest ++ B) hd
      simp only [List.cons_append] at this ⊢
      rw [this, ih]
      cases parseEntries aSize B <;> simp

theorem keyIds_append (es1 es2 : List WEntry) :
    keyIds (es1 ++ es2) = keyIds es1 ++ keyIds es2 := by
  simp [keyIds]

/-! ## Claim C3 — entry-stream type tags -/

/-- C3 counterexample: a key-data record is written with type byte 0
(`WLT_DATATYPE_KEYDATA = 0`), not 0x01 as the claim states, and an unknown
type byte (here 6) is not fatal on read — the reader returns an entry and
silently continues. -/
theorem entryTags_claim_fails :
    packAdd WLT_DATATYPE_KEYDATA (List.replicate 20 7) (.addrObj [9]) =
      some (0 :: (List.replicate 20 7 ++ [9])) ∧
    WLT_DATATYPE_KEYDATA ≠ 1 ∧
    parseEntries 1 [6] = some [.unknown 6] := by
  refine ⟨by decide, by decide, ?_⟩
  rw [parseEntries_unknown 1 6 [] (by omega), parseEntries_nil]
  rfl

/-- C3 as amended: entry-stream records use the type tags the code assigns —
key data 0, address comments 1, tx comments 2, reserved OP_EVAL 3, tombstones
4; a key-data add packs its tag in front of the 20-byte id and the record; on
read, tag 3 is rejected as reserved (fatal), tag 4 advances the read cursor by
the record's declared length, and any other unrecognized tag (5 and above) is
not fatal: it consumes one byte and reading continues. -/
theorem entryTags (aSize d len : Nat) (id160 ser bs rest : List Nat)
    (h20 : id160.length = 20) (hser : ser.length = aSize)
    (hd : 5 ≤ d) (hlen : len < 65536) (hbs : bs.length = len) :
    (WLT_DATATYPE_KEYDATA = 0 ∧ WLT_DATATYPE_ADDRCOMMENT = 1 ∧
     WLT_DATATYPE_TXCOMMENT = 2 ∧ WLT_DATATYPE_OPEVAL = 3 ∧
     WLT_DATATYPE_DELETED = 4) ∧
    packAdd WLT_DATATYPE_KEYDATA id160 (.addrObj ser) =
      some (WLT_DATATYPE_KEYDATA :: (id160 ++ ser)) ∧
    parseEntries aSize (WLT_DATATYPE_KEYDATA :: (id160 ++ (ser ++ rest))) =
      (parseEntries aSize rest).map (fun es => WEntry.keyData id160 ser :: es) ∧
    parseEntries aSize (WLT_DATATYPE_OPEVAL :: rest) = none ∧
    parseEntries aSize (WLT_DATATYPE_DELETED :: (toLE 2 len ++ (bs ++ rest))) =
      (parseEntries aSize rest).map (fun es => WEntry.deleted len :: es) ∧
    parseEntries aSize (d :: rest) =
      (parseEntries aSize rest).map (fun es => WEntry.unknown d :: es) := by
  refine ⟨⟨rfl, rfl, rfl, rfl, rfl⟩, ?_,
          parseEntries_keyData aSize id160 ser rest h20 hser,
          parseEntries_opeval aSize rest,
          parseEntries_deleted aSize len bs rest hbs hlen,
          parseEntries_unknown aSize d rest hd⟩
  simp [packAdd, h20]

/-- Witness for the amended C3 at concrete inputs: a record width of 1, an
unknown tag 6, a zero-length tombstone, a 20-byte id of twos and a 1-byte
address record. -/
theorem entryTags_witness :
    (WLT_DATATYPE_KEYDATA = 0 ∧ WLT_DATATYPE_ADDRCOMMENT = 1 ∧
     WLT_DATATYPE_TXCOMMENT = 2 ∧ WLT_DATATYPE_OPEVAL = 3 ∧
     WLT_DATATYPE_DELETED = 4) ∧
    packAdd WLT_DATATYPE_KEYDATA (List.replicate 20 2) (.addrObj [5]) =
      some (WLT_DATATYPE_KEYDATA :: (List.replicate 20 2 ++ [5])) ∧
    parseEntries 1 (WLT_DATATYPE_KEYDATA :: (List.replicate 20 2 ++ ([5] ++ []))) =
      (parseEntries 1 []).map (fun es => WEntry.keyData (List.replicate 20 2) [5] :: es) ∧
    parseEntries 1 (WLT_DATATYPE_OPEVAL :: []) = none ∧
    parseEntries 1 (WLT_DATATYPE_DELETED :: (toLE 2 0 ++ ([] ++ []))) =
      (parseEntries 1 []).map (fun es => WEntry.deleted 0 :: es) ∧
    parseEntries 1 (6 :: []) =
      (parseEntries 1 []).map (fun es => WEntry.unknown 6 :: es) :=
  entryTags 1 6 0 (List.replicate 20 2) [5] [] []
    (by decide) (by decide) (by omega) (by decide) (by decide)

/-! ## Claim C4 — imported-key deletion -/

/-- C4 counterexample: the tombstone written by `deleteImportedAddress` starts
with type byte `WLT_DATATYPE_DELETED = 4` (0x04), not 0x05 as the claim
states. -/
theorem deleteImported_claim_fails :
    deleteImportedAddress (-2) 21 3 = .ok [(0, tombstoneBytes 3)] ∧
    (tombstoneBytes 3).head? = some WLT_DATATYPE_DELETED ∧
    WLT_DATATYPE_DELETED ≠ 5 := by
  refine ⟨rfl, by decide, by decide⟩

/-- C4 as amended: `deleteImportedAddress` succeeds only on an address whose
`chainIndex` equals -2, raising on any other address with no state change; on
success it performs exactly one in-place `MODIFY` starting at
`walletByteLoc - 21` that writes the `0x04` tombstone type byte (the code's
`WLT_DATATYPE_DELETED`, not 0x05), a 2-byte length equal to
`20 + addrRecordWidth - 2`, then that many zero bytes — exactly the width of
the replaced record — and the subsequent reload parses the overwritten region
as a tombstone, so the deleted address's hash no longer appears among the
key-data ids that populate the in-memory maps. -/
theorem deleteImported (ci : Int) (loc aSize : Nat) (A : List Nat) (esA : List WEntry)
    (id160 ser B : List Nat) (esB : List WEntry)
    (hci : ci ≠ -2) (hA : ParsesTo aSize A esA) (h20 : id160.length = 20)
    (hser : ser.length = aSize) (hB : parseEntries aSize B = some esB)
    (haS : 18 + aSize < 65536) :
    deleteImportedAddress ci loc aSize =
      .error "You can only delete imported addresses!" ∧
    deleteImportedAddress (-2) (A.length + 21) aSize =
      .ok [(A.length, tombstoneBytes aSize)] ∧
    tombstoneBytes aSize =
      WLT_DATATYPE_DELETED :: (toLE 2 (20 + aSize - 2) ++
        List.replicate (20 + aSize - 2) 0) ∧
    (tombstoneBytes aSize).length = 21 + aSize ∧
    parseEntries aSize (A ++ (WLT_DATATYPE_KEYDATA :: (id160 ++ (ser ++ B)))) =
      some (esA ++ WEntry.keyData id160 ser :: esB) ∧
    writeAt (A ++ (WLT_DATATYPE_KEYDATA :: (id160 ++ (ser ++ B)))) A.length
        (tombstoneBytes aSize) =
      A ++ (tombstoneBytes aSize ++ B) ∧
    parseEntries aSize (A ++ (tombstoneBytes aSize ++ B)) =
      some (esA ++ WEntry.deleted (18 + aSize) :: esB) ∧
    keyIds (esA ++ WEntry.deleted (18 + aSize) :: esB) = keyIds esA ++ keyIds esB := by
  have h18 : 20 + aSize - 2 = 18 + aSize := by omega
  have htlen : (tombstoneBytes aSize).length = 21 + aSize := by
    simp [tombstoneBytes, toLE_length]
    omega
  have hrec : parseEntries aSize (WLT_DATATYPE_KEYDATA :: (id160 ++ (ser ++ B))) =
      some (WEntry.keyData id160 ser :: esB) := by
    rw [parseEntries_keyData aSize id160 ser B h20 hser, hB]
    rfl
  have hparse1 : parseEntries aSize
      (A ++ (WLT_DATATYPE_KEYDATA :: (id160 ++ (ser ++ B)))) =
      some (esA ++ WEntry.keyData id160 ser :: esB) := by
    rw [parsesTo_append aSize A esA hA, hrec]
    rfl
  have htomb : tombstoneBytes aSize ++ B =
      WLT_DATATYPE_DELETED :: (toLE 2 (18 + aSize) ++
        (List.replicate (18 + aSize) 0 ++ B)) := by
    simp [tombstoneBytes, h18, List.append_assoc]
  have hparse2 : parseEntries aSize (A ++ (tombstoneBytes aSize ++ B)) =
      some (esA ++ WEntry.deleted (18 + aSize) :: esB) := by
    rw [parsesTo_append aSize A esA hA, htomb,
        parseEntries_deleted aSize (18 + aSize) (List.replicate (18 + aSize) 0) B
          (by simp) haS, hB]
    rfl
  have hwrite : writeAt (A ++ (WLT_DATATYPE_KEYDATA :: (id160 ++ (ser ++ B)))) A.length
      (tombstoneBytes aSize) = A ++ (tombstoneBytes aSize ++ B) := by
    have hreclen : (WLT_DATATYPE_KEYDATA :: (id160 ++ ser)).length = 21 + aSize := by
      simp [h20, hser]
      omega
    have hsplit : A ++ (WLT_DATATYPE_KEYDATA :: (id160 ++ (ser ++ B))) =
        (A ++ (WLT_DATATYPE_KEYDATA :: (id160 ++ ser))) ++ B := by
      simp [List.append_assoc]
    have hlenA : (A ++ (WLT_DATATYPE_KEYDATA :: (id160 ++ ser))).length =
        A.length + (21 + aSize) := by
      simp [hreclen]
    have htk : (A ++ (WLT_DATATYPE_KEYDATA :: (id160 ++ (ser ++ B)))).take A.length
        = A := by
      rw [hsplit, List.append_assoc]
      exact List.take_left' rfl
    have hdr : (A ++ (WLT_DATATYPE_KEYDATA :: (id160 ++ (ser ++ B)))).drop
        (A.length + (tombstoneBytes aSize).length) = B := by
      rw [htlen, hsplit]
      exact List.drop_left' hlenA
    have hle : A.length ≤
        (A ++ (WLT_DATATYPE_KEYDATA :: (id160 ++ (ser ++ B)))).length := by
      simp
    rw [writeAt, htk, hdr, Nat.sub_eq_zero_of_le hle]
    simp
  exact ⟨by simp [deleteImportedAddress, hci],
         by simp [deleteImportedAddress],
         rfl, htlen, hparse1, hwrite, hparse2, by simp [keyIds]⟩

/-- Witness for the amended C4 at concrete inputs: record width 2, a stream
holding exactly one imported key record (20-byte id of ones), empty
surroundings, and a non-imported chain index 0 for the error case. -/
theorem deleteImported_witness :
    deleteImportedAddress 0 21 2 =
      .error "You can only delete imported addresses!" ∧
    deleteImportedAddress (-2) (List.length ([] : List Nat) + 21) 2 =
      .ok [(List.length ([] : List Nat), tombstoneBytes 2)] ∧
    tombstoneBytes 2 =
      WLT_DATATYPE_DELETED :: (toLE 2 (20 + 2 - 2) ++ List.replicate (20 + 2 - 2) 0) ∧
    (tombstoneBytes 2).length = 21 + 2 ∧
    parseEntries 2 ([] ++ (WLT_DATATYPE_KEYDATA :: (List.replicate 20 1 ++ ([7, 7] ++ [])))) =
      some ([] ++ WEntry.keyData (List.replicate 20 1) [7, 7] :: []) ∧
    writeAt ([] ++ (WLT_DATATYPE_KEYDATA :: (List.replicate 20 1 ++ ([7, 7] ++ []))))
        (List.length ([] : List Nat)) (tombstoneBytes 2) =
      [] ++ (tombstoneBytes 2 ++ []) ∧
    parseEntries 2 ([] ++ (tombstoneBytes 2 ++ [])) =
      some ([] ++ WEntry.deleted (18 + 2) :: []) ∧
    keyIds ([] ++ WEntry.deleted (18 + 2) :: []) = keyIds [] ++ keyIds [] :=
  deleteImported 0 21 2 [] [] (List.replicate 20 1) [7, 7] [] []
    (by decide) ParsesTo.nil (by decide) (by decide) (parseEntries_nil 2) (by decide)

/-! ## Claim C7 — KDF parameter codec -/

/-- C7: for every KDF parameter triple (with the fields in their machine
widths, a 32-byte salt, a 4-byte checksum function value, and the 44 data
bytes not all zero — the all-zero block is reserved to mean no KDF),
the serializer produces the 256-byte block
`memoryBytes(u64) || iterations(u32) || salt(32) || checksum4(first 44 bytes)
|| zero padding`, and the unserializer applied to that block recovers the same
triple with no rewrite scheduled; a block whose first 44 bytes are all zero
denotes no KDF; and whenever checksum verification repairs the data bytes to
something different from what was read, an in-place rewrite of the repaired
bytes at `offsetKdfParams` is scheduled. -/
theorem kdfParams_roundTrip (chk : List Nat → List Nat) (mem niter : Nat)
    (salt : List Nat) (offsetKdfParams : Nat) (blob2 fixed : List Nat)
    (hmem : mem < 2 ^ 64) (hniter : niter < 2 ^ 32) (hsalt : salt.length = 32)
    (hchk : (chk (toLE 8 mem ++ (toLE 4 niter ++ salt))).length = 4)
    (hnz : toLE 8 mem ++ (toLE 4 niter ++ salt) ≠ List.replicate 44 0)
    (hb1 : blob2.take 44 ≠ List.replicate 44 0)
    (hb2 : verifyChecksum chk (blob2.take 44) ((blob2.drop 44).take 4) = some fixed)
    (hb3 : fixed ≠ blob2.take 44) :
    serializeKdfParams chk (some (mem, niter, salt)) =
      toLE 8 mem ++ (toLE 4 niter ++ (salt ++
        (chk (toLE 8 mem ++ (toLE 4 niter ++ salt)) ++ List.replicate 208 0))) ∧
    (serializeKdfParams chk (some (mem, niter, salt))).length = 256 ∧
    unserializeKdfParams chk offsetKdfParams
        (serializeKdfParams chk (some (mem, niter, salt))) =
      .ok (some (mem, niter, salt), []) ∧
    unserializeKdfParams chk offsetKdfParams (List.replicate 256 0) =
      .ok (none, []) ∧
    unserializeKdfParams chk offsetKdfParams blob2 =
      .ok (some (fromLE (fixed.take 8), fromLE ((fixed.drop 8).take 4),
                 (fixed.drop 12).take 32),
           [(offsetKdfParams, fixed)]) := by
  have hcp : chunkPad 32 salt = salt := by
    simp [chunkPad, hsalt]
  have hlen44 : (toLE 8 mem ++ (toLE 4 niter ++ salt)).length = 44 := by
    simp [toLE_length, hsalt]
  have hchkpad : chunkPad 4 (chk (toLE 8 mem ++ (toLE 4 niter ++ salt))) =
      chk (toLE 8 mem ++ (toLE 4 niter ++ salt)) := by
    simp [chunkPad, hchk]
  have hlen48 : (toLE 8 mem ++ (toLE 4 niter ++ (salt ++
      chk (toLE 8 mem ++ (toLE 4 niter ++ salt))))).length = 48 := by
    simp [toLE_length, hsalt, hchk]
  have hx : serializeKdfParams chk (some (mem, niter, salt)) =
      toLE 8 mem ++ (toLE 4 niter ++ (salt ++
        (chk (toLE 8 mem ++ (toLE 4 niter ++ salt)) ++ List.replicate 208 0))) := by
    simp only [serializeKdfParams, hcp, List.append_assoc]
    rw [hchkpad, hlen48]
  have hregroup : ∀ X : List Nat,
      toLE 8 mem ++ (toLE 4 niter ++ (salt ++ X)) =
        (toLE 8 mem ++ (toLE 4 niter ++ salt)) ++ X := by
    intro X
    simp [List.append_assoc]
  have hser : serializeKdfParams chk (some (mem, niter, salt)) =
      (toLE 8 mem ++ (toLE 4 niter ++ salt)) ++
        (chk (toLE 8 mem ++ (toLE 4 niter ++ salt)) ++ List.replicate 208 0) := by
    rw [hx, hregroup]
  have ht44 : (serializeKdfParams chk (some (mem, niter, salt))).take 44 =
      toLE 8 mem ++ (toLE 4 niter ++ salt) := by
    rw [hser]
    exact List.take_left' hlen44
  have hd44 : (serializeKdfParams chk (some (mem, niter, salt))).drop 44 =
      chk (toLE 8 mem ++ (toLE 4 niter ++ salt)) ++ List.replicate 208 0 := by
    rw [hser]
    exact List.drop_left' hlen44
  have ht4 : (chk (toLE 8 mem ++ (toLE 4 niter ++ salt)) ++
      List.replicate 208 0).take 4 = chk (toLE 8 mem ++ (toLE 4 niter ++ salt)) :=
    List.take_left' hchk
  have hv : verifyChecksum chk (toLE 8 mem ++ (toLE 4 niter ++ salt))
      (chk (toLE 8 mem ++ (toLE 4 niter ++ salt))) =
      some (toLE 8 mem ++ (toLE 4 niter ++ salt)) := by
    simp [verifyChecksum]
  have hp8 : (toLE 8 mem ++ (toLE 4 niter ++ salt)).take 8 = toLE 8 mem :=
    List.take_left' (toLE_length 8 mem)
  have hd8 : (toLE 8 mem ++ (toLE 4 niter ++ salt)).drop 8 = toLE 4 niter ++ salt :=
    List.drop_left' (toLE_length 8 mem)
  have hp4 : (toLE 4 niter ++ salt).take 4 = toLE 4 niter :=
    List.take_left' (toLE_length 4 niter)
  have hd12 : (toLE 8 mem ++ (toLE 4 niter ++ salt)).drop 12 = salt := by
    rw [show (12 : Nat) = 8 + 4 from rfl, ← List.drop_drop, hd8,
        List.drop_left' (toLE_length 4 niter)]
  have hs32 : salt.take 32 = salt := by
    rw [← hsalt]
    exact List.take_length salt
  refine ⟨hx, ?_, ?_, ?_, ?_⟩
  · rw [hser]
    simp [toLE_length, hsalt, hchk]
  · simp only [unserializeKdfParams, ht44, hd44, ht4]
    rw [if_neg hnz]
    simp only [hv]
    simp [hp8, hd8, hp4, hd12, hs32, fromLE_toLE 8 mem hmem, fromLE_toLE 4 niter hniter]
  · have hz : (List.replicate 256 (0 : Nat)).take 44 = List.replicate 44 0 := by
      rw [List.take_replicate]
      norm_num
    simp [unserializeKdfParams, hz]
  · simp only [unserializeKdfParams]
    rw [if_neg hb1]
    simp only [hb2]
    rw [if_neg hb3]

/-- Witness for C7 at concrete inputs: parameters (3, 2, 32 fives) with a
checksum function returning 1,2,3,4 except on blocks starting with a zero
byte, where it returns 9,9,9,9 — so the corrupted block starting with a one is
repaired (first flip: byte 0 set to 0) to the all-zero data bytes, which
differ from what was read, scheduling the rewrite at offset 7. -/
theorem kdfParams_roundTrip_witness :
    serializeKdfParams kdfChkWitness (some (3, 2, List.replicate 32 5)) =
      toLE 8 3 ++ (toLE 4 2 ++ (List.replicate 32 5 ++
        (kdfChkWitness (toLE 8 3 ++ (toLE 4 2 ++ List.replicate 32 5)) ++
         List.replicate 208 0))) ∧
    (serializeKdfParams kdfChkWitness (some (3, 2, List.replicate 32 5))).length = 256 ∧
    unserializeKdfParams kdfChkWitness 7
        (serializeKdfParams kdfChkWitness (some (3, 2, List.replicate 32 5))) =
      .ok (some (3, 2, List.replicate 32 5), []) ∧
    unserializeKdfParams kdfChkWitness 7 (List.replicate 256 0) = .ok (none, []) ∧
    unserializeKdfParams kdfChkWitness 7
        ((1 :: List.replicate 43 0) ++ [9, 9, 9, 9]) =
      .ok (some (fromLE ((List.replicate 44 0).take 8),
                 fromLE (((List.replicate 44 0).drop 8).take 4),
                 ((List.replicate 44 0).drop 12).take 32),
           [(7, List.replicate 44 0)]) :=
  kdfParams_roundTrip kdfChkWitness 3 2 (List.replicate 32 5) 7
    ((1 :: List.replicate 43 0) ++ [9, 9, 9, 9]) (List.replicate 44 0)
    (by norm_num) (by norm_num) (by decide) (by decide) (by decide)
    (by decide) (by decide) (by decide)

/-! ## Claim C8 — external-key import -/

/-- C8 counterexample: with abstract crypto where the supplied public key
(2) differs from the one computed from the supplied private key (7),
the import is not rejected — the mismatch checks of lines 2335-2338 are commented
out in the source — and the address is imported under the computed hash. -/
theorem importExternal_claim_fails :
    importExternalAddressData (fun _ => [7]) (fun l => 9 :: l)
        ⟨false, false, false, false, []⟩ (some [1]) (some [2]) none =
      (.imported [9, 7], ⟨false, false, false, false, [[9, 7]]⟩) ∧
    some [2] ≠ some ((fun (_ : List Nat) => [7]) [1]) := by
  refine ⟨by decide, by decide⟩

/-- C8 as amended: `importExternalAddressData`, called with a private key,
ignores any supplied public key or address hash that disagrees with the
values computed from the private key (the computed hash160 silently wins);
an import whose computed hash160 is already in the wallet returns `None`
with no state change and raises no `DuplicateAddress`-style error; and when
the wallet is encrypted and a private key is supplied while the wallet is
locked (no cached kdf key), the call fails with `WalletLockError` and changes
no state. -/
theorem importExternal (cp hp : List Nat → List Nat) (w : ImpState) (k : List Nat)
    (pub a20 : Option (List Nat))
    (hbdm : w.calledFromBDM = false)
    (ha20 : ∀ a, a20 = some a → a ∉ w.addrKeys) :
    (hp (cp k) ∈ w.addrKeys →
      importExternalAddressData cp hp w (some k) pub a20 = (.dupNone, w)) ∧
    (hp (cp k) ∉ w.addrKeys → w.useEncryption = true → w.kdfKeyPresent = false →
      importExternalAddressData cp hp w (some k) pub a20 = (.errLocked, w)) ∧
    (hp (cp k) ∉ w.addrKeys → (w.useEncryption = false ∨ w.kdfKeyPresent = true) →
      importExternalAddressData cp hp w (some k) pub a20 =
        (.imported (hp (cp k)), { w with addrKeys := w.addrKeys ++ [hp (cp k)] })) := by
  have hsup : suppliedDup w a20 = false := by
    cases h : a20 with
    | none => rfl
    | some a =>
        have hna := ha20 a h
        simp [suppliedDup, hna]
  refine ⟨?_, ?_, ?_⟩
  · intro hmem
    simp [importExternalAddressData, hbdm, hsup, hmem]
  · intro hmem henc hkdf
    simp [importExternalAddressData, hbdm, hsup, hmem, henc, hkdf]
  · intro hmem hflag
    cases hflag with
    | inl henc => simp [importExternalAddressData, hbdm, hsup, hmem, henc]
    | inr hkdf => simp [importExternalAddressData, hbdm, hsup, hmem, hkdf]

/-- Witness for the amended C8: an empty unencrypted wallet, a private key of
one byte, a deliberately mismatching supplied public key, and no supplied
hash; the import succeeds under the computed hash 9,7. -/
theorem importExternal_witness :
    importExternalAddressData (fun _ => [7]) (fun l => 9 :: l)
        ⟨false, false, true, false, []⟩ (some [1]) (some [2]) none =
      (.imported ((fun (l : List Nat) => 9 :: l) ((fun (_ : List Nat) => [7]) [1])),
       { (⟨false, false, true, false, []⟩ : ImpState) with
          addrKeys := [] ++ [(fun (l : List Nat) => 9 :: l) ((fun (_ : List Nat) => [7]) [1])] }) :=
  (importExternal (fun _ => [7]) (fun l => 9 :: l) ⟨false, false, true, false, []⟩
    [1] (some [2]) none rfl (by simp)).2.2 (by simp) (Or.inl rfl)

end PyBtcWallet
